import Mathlib

/-!
Shallow embedding of the task core of the `woiyoi` runtime
(`src/woi/src/task/raw.rs`), together with proofs of the specified
properties of `RawTask`.

The repository ships only `raw.rs`; the sibling modules `state.rs`
(`State`), `header.rs` (`Header`) and `task.rs` (`Task`) are not present,
so those types' operations are modelled from the specification (§3, §4.1,
§4.2) and are marked `Modelled from the spec:` below.  Everything in the
`RawTask` namespace is translated directly from `raw.rs`.

Fatal conditions (Rust panics / logic errors) are modelled with `Option`
(`none` = the execution aborts).  Observable actions (run-state
transitions, storing the output, waking the join waiter, calling the
scheduler, deallocating) are recorded as an ordered list of events, so
that ordering claims about `poll`, `wake` and the reference-counting
operations can be stated as facts about the emitted trace.
-/

namespace Woi

/-- Modelled from the spec: the `run_state` enum of the Lifecycle State
(`state.rs` is absent from the sources). §3: `run_state: enum {Idle,
Running, Scheduled, Complete}`. -/
inductive RunState where
  | Idle
  | Running
  | Scheduled
  | Complete
deriving DecidableEq, Repr

/-- Modelled from the spec: the Lifecycle State value (`state.rs` is
absent). §3: reference count, run-state, join-waiter flag. -/
structure State where
  ref_count : Nat
  run_state : RunState
  has_join_waiter : Bool
deriving DecidableEq, Repr

namespace State

/-- Modelled from the spec: `new()` → ref_count = 1 (the creator's
reference), run_state = Idle, has_join_waiter = false (§4.1). -/
def new : State := ⟨1, RunState.Idle, false⟩

/-- Modelled from the spec: `ref_incr()` increments ref_count (§4.1). -/
def ref_incr (s : State) : State := { s with ref_count := s.ref_count + 1 }

/-- Modelled from the spec: `ref_decr()` decrements ref_count; fails
fatally if called when ref_count is already zero (§4.1). -/
def ref_decr (s : State) : Option State :=
  if s.ref_count = 0 then none
  else some { s with ref_count := s.ref_count - 1 }

/-- Modelled from the spec: `transition_to_running()`: Idle/Scheduled →
Running; calling while already Running or Complete is a logic error
(§4.1). -/
def transition_to_running (s : State) : Option State :=
  match s.run_state with
  | RunState.Idle => some { s with run_state := RunState.Running }
  | RunState.Scheduled => some { s with run_state := RunState.Running }
  | _ => none

/-- Modelled from the spec: `transition_to_idle()`: Running → Idle
(§4.1). -/
def transition_to_idle (s : State) : Option State :=
  match s.run_state with
  | RunState.Running => some { s with run_state := RunState.Idle }
  | _ => none

/-- Modelled from the spec: `transition_to_scheduled()`: any state →
Scheduled (§4.1). -/
def transition_to_scheduled (s : State) : State :=
  { s with run_state := RunState.Scheduled }

/-- Modelled from the spec: `transition_to_complete()`: Running →
Complete (§4.1). -/
def transition_to_complete (s : State) : Option State :=
  match s.run_state with
  | RunState.Running => some { s with run_state := RunState.Complete }
  | _ => none

/-- Modelled from the spec: `has_join_waker()` queries the join-waiter
flag (§4.1). -/
def has_join_waker (s : State) : Bool := s.has_join_waiter

/-- Modelled from the spec: `unset_join_handle()` clears the join-waiter
flag (§4.1). -/
def unset_join_handle (s : State) : State := { s with has_join_waiter := false }

end State

/-- Modelled from the spec: the Task Header (`header.rs` is absent).
§3: Lifecycle State plus an optional join waker (the operation table is
static per instantiation and carries no data relevant here; the stored
waker is abstracted to a token). -/
structure Header where
  state : State
  waker : Option Unit
deriving DecidableEq, Repr

/-- Observable actions of the task operations, recorded in order. -/
inductive Event (O : Type) where
  | transRunning
  | transComplete
  | transIdle
  | wakeJoin
  | storeOutput (out : O)
  | schedule (addr : Nat)
  | dealloc (addr : Nat)
deriving DecidableEq, Repr

/-- Modelled from the spec: `Header::wake_join_handle()` consumes the
stored join waker (if any) and notifies it (§4.2); notification is the
`wakeJoin` event. -/
def Header.wake_join_handle (O : Type) (h : Header) : Header × List (Event O) :=
  match h.waker with
  | some _ => ({ h with waker := none }, [Event.wakeJoin])
  | none => (h, [])

/-- `Status<F>` from `raw.rs`: `Running(F) | Finished(F::Output) |
Consumed`. -/
inductive Status (F O : Type) where
  | Running (future : F)
  | Finished (out : O)
  | Consumed
deriving DecidableEq, Repr

/-- The contents of one task allocation: the Header, the embedded
scheduler instance and the Status cell (the three fields laid out by
`RawTask::layout` and written by `RawTask::new`). -/
structure TaskState (F O S : Type) where
  header : Header
  scheduler : S
  status : Status F O
deriving DecidableEq, Repr

namespace RawTask

variable {F O S : Type}

/-- `RawTask::new` (raw.rs:74-102): writes a fresh Header (new Lifecycle
State, no join waker, static vtable), the scheduler instance, and
`Status::Running(future)` into one allocation.  The model gives the
allocation's contents; the address is chosen by the allocator and is
carried separately as `ptr`. -/
def new (O : Type) (future : F) (scheduler : S) : TaskState F O S :=
  { header := { state := State.new, waker := none }
    scheduler := scheduler
    status := Status.Running future }

/-- `RawTask::schedule` (raw.rs:210-219): builds a `Task` handle from the
same pointer and hands it to the embedded scheduler's `schedule`.  The
call is recorded as a `schedule ptr` event. -/
def schedule (ptr : Nat) (_t : TaskState F O S) : List (Event O) :=
  [Event.schedule ptr]

/-- `RawTask::clone_waker` (raw.rs:147-152): increments `ref_count` and
returns a raw waker bound to the same pointer. -/
def clone_waker (ptr : Nat) (t : TaskState F O S) : TaskState F O S × Nat :=
  ({ t with header := { t.header with state := t.header.state.ref_incr } }, ptr)

/-- `RawTask::drop_waker` (raw.rs:156-163): decrements `ref_count`; if
the count is then zero, deallocates. -/
def drop_waker (ptr : Nat) (t : TaskState F O S) :
    Option (TaskState F O S × List (Event O)) :=
  match t.header.state.ref_decr with
  | none => none
  | some s =>
    let t' : TaskState F O S := { t with header := { t.header with state := s } }
    if s.ref_count = 0 then some (t', [Event.dealloc ptr])
    else some (t', [])

/-- `RawTask::wake` (raw.rs:168-200): transitions the run-state to
Scheduled, then calls `schedule` (the drop of the waker's own reference
is commented out in the source). -/
def wake (ptr : Nat) (t : TaskState F O S) : TaskState F O S × List (Event O) :=
  let t' : TaskState F O S :=
    { t with header := { t.header with state := t.header.state.transition_to_scheduled } }
  (t', schedule ptr t')

/-- `RawTask::wake_by_ref` (raw.rs:202-208): transitions the run-state to
Scheduled, then calls `schedule`. -/
def wake_by_ref (ptr : Nat) (t : TaskState F O S) : TaskState F O S × List (Event O) :=
  let t' : TaskState F O S :=
    { t with header := { t.header with state := t.header.state.transition_to_scheduled } }
  (t', schedule ptr t')

/-- `RawTask::poll` (raw.rs:222-257).  `step` is the future's single-step
computation (`F::poll`): `Sum.inl out` models `Poll::Ready(out)`,
`Sum.inr f` models `Poll::Pending` with the future's state advanced to
`f`.  The source order is: read Status (panic unless `Running`),
`transition_to_running`, poll the future; on Ready:
`transition_to_complete`, wake the join handle if the waiter flag is set,
then overwrite Status with `Finished(out)`; on Pending:
`transition_to_idle`.

The local `Waker` built at raw.rs:226 via
`Waker::from_raw(RawWaker::new(ptr, &RAW_WAKER_VTABLE))` acquires no
reference of its own; when `poll` returns, that `Waker` is dropped and
its `Drop` impl invokes the vtable's drop entry, `drop_waker`
(raw.rs:156-163), which decrements `ref_count` and deallocates the task
if the count reaches zero.  Every run of `poll` therefore ends with this
implicit release, modelled here by composing with `drop_waker`. -/
def poll (step : F → O ⊕ F) (ptr : Nat) (t : TaskState F O S) :
    Option (TaskState F O S × List (Event O)) :=
  match t.status with
  | Status.Running future =>
    match t.header.state.transition_to_running with
    | none => none
    | some s1 =>
      match step future with
      | Sum.inl out =>
        match s1.transition_to_complete with
        | none => none
        | some s2 =>
          let hd : Header := { state := s2, waker := t.header.waker }
          let woken : Header × List (Event O) :=
            if s2.has_join_waker then hd.wake_join_handle O else (hd, [])
          let t' : TaskState F O S :=
            { t with header := woken.1, status := Status.Finished out }
          match drop_waker ptr t' with
          | none => none
          | some (t'', evs') =>
            some (t'', [Event.transRunning, Event.transComplete] ++ woken.2
                  ++ [Event.storeOutput out] ++ evs')
      | Sum.inr f' =>
        match s1.transition_to_idle with
        | none => none
        | some s2 =>
          let t' : TaskState F O S :=
            { t with header := { state := s2, waker := t.header.waker },
                     status := Status.Running f' }
          match drop_waker ptr t' with
          | none => none
          | some (t'', evs') =>
            some (t'', [Event.transRunning, Event.transIdle] ++ evs')
  | _ => none

/-- `RawTask::get_output` (raw.rs:259-269): `mem::replace` puts
`Status::Consumed` into the Status cell and returns the old value, which
is then inspected: `Finished(output)` writes `Poll::Ready(output)` to the
destination (`Except.ok`), anything else panics (`Except.error`).  Note
the replacement happens before the match, so the cell is `Consumed` on
every path. -/
def get_output (_ptr : Nat) (t : TaskState F O S) :
    TaskState F O S × Except String O :=
  let old := t.status
  let t' : TaskState F O S := { t with status := Status.Consumed }
  match old with
  | Status.Finished out => (t', Except.ok out)
  | _ => (t', Except.error "Could not retrieve output!")

/-- `RawTask::drop_join_handle` (raw.rs:271-284): unsets the join-handle
bit, decrements `ref_count`, and deallocates if the count is then
zero. -/
def drop_join_handle (ptr : Nat) (t : TaskState F O S) :
    Option (TaskState F O S × List (Event O)) :=
  let s0 := t.header.state.unset_join_handle
  match s0.ref_decr with
  | none => none
  | some s =>
    let t' : TaskState F O S := { t with header := { t.header with state := s } }
    if s.ref_count = 0 then some (t', [Event.dealloc ptr])
    else some (t', [])

end RawTask

/-- The two reference-releasing operations of the task core. -/
inductive ReleaseOp where
  | waker
  | join
deriving DecidableEq, Repr

/-- Dispatch one reference-releasing operation. -/
def releaseStep {F O S : Type} (ptr : Nat) (op : ReleaseOp) (t : TaskState F O S) :
    Option (TaskState F O S × List (Event O)) :=
  match op with
  | ReleaseOp.waker => RawTask.drop_waker ptr t
  | ReleaseOp.join => RawTask.drop_join_handle ptr t

/-- Run a sequence of reference-releasing operations, concatenating the
emitted events; aborts (`none`) if any step is fatal. -/
def runReleases {F O S : Type} (ptr : Nat) (ops : List ReleaseOp) (t : TaskState F O S) :
    Option (TaskState F O S × List (Event O)) :=
  match ops with
  | [] => some (t, [])
  | op :: rest =>
    match releaseStep ptr op t with
    | none => none
    | some (t', evs) =>
      match runReleases ptr rest t' with
      | none => none
      | some (t'', evs') => some (t'', evs ++ evs')

/-- Iterate `clone_waker` n times (each clone returns a waker bound to
the same pointer, so only the state accumulates). -/
def cloneN {F O S : Type} (ptr : Nat) : Nat → TaskState F O S → TaskState F O S
  | 0, t => t
  | n + 1, t => cloneN ptr n (RawTask.clone_waker ptr t).1

/-!
Model of `std::alloc::Layout` as used by `RawTask::layout` /
`RawTask::from_ptr` (raw.rs:104-137).  A layout is a size and an
alignment (a power of two in Rust; here carried as a positive number).
`extend` follows `Layout::extend` from the Rust standard library:
round the current size up to the next field's alignment to obtain the
field's offset, add the field's size, and take the maximum alignment;
it fails (`none`) when the rounded-up size would overflow `isize`
(`raw.rs` turns that failure into a panic via `expect`).
-/

/-- `isize::MAX` on a 64-bit target. -/
def isizeMax : Nat := 2 ^ 63 - 1

/-- Model of `std::alloc::Layout`: size and alignment in bytes. -/
structure RLayout where
  size : Nat
  align : Nat
deriving DecidableEq, Repr

namespace RLayout

/-- `Layout::padding_needed_for`: bytes of padding after `size` to reach
a multiple of `a`. -/
def padding_needed_for (l : RLayout) (a : Nat) : Nat :=
  (l.size + a - 1) / a * a - l.size

/-- `Layout::extend`: offset of the next field = current size rounded up
to the next field's alignment; resulting size adds the next field's size;
resulting alignment is the maximum.  Fails if the size, rounded up to the
alignment, would exceed `isize::MAX`. -/
def extend (l next : RLayout) : Option (RLayout × Nat) :=
  let new_align := max l.align next.align
  let pad := l.padding_needed_for next.align
  let offset := l.size + pad
  let new_size := offset + next.size
  if new_size + (new_align - 1) ≤ isizeMax then
    some (⟨new_size, new_align⟩, offset)
  else none

end RLayout

/-- `TaskLayout` from `raw.rs`: the combined layout plus the byte offsets
of the scheduler and status fields. -/
structure TaskLayout where
  layout : RLayout
  offset_schedule : Nat
  offset_status : Nat
deriving DecidableEq, Repr

/-- The field addresses recovered by `RawTask::from_ptr`. -/
structure RawPtrs where
  header : Nat
  scheduler : Nat
  status : Nat
deriving DecidableEq, Repr

namespace RawTask

/-- `RawTask::layout` (raw.rs:119-137), parametrised by the compile-time
layouts of `Header`, `S` and `Status<F>` for the instantiation: start
from the header layout and `extend` it with the scheduler layout and then
the status layout, recording both offsets.  A failing `extend` is a panic
(`expect`), modelled as `none`. -/
def layout (header_layout schedule_layout stage_layout : RLayout) :
    Option TaskLayout :=
  match header_layout.extend schedule_layout with
  | none => none
  | some (l1, offset_schedule) =>
    match l1.extend stage_layout with
    | none => none
    | some (l2, offset_status) =>
      some ⟨l2, offset_schedule, offset_status⟩

/-- `RawTask::from_ptr` (raw.rs:104-114): recomputes `Self::layout()` and
interprets `ptr` as the header address, `ptr + offset_schedule` as the
scheduler address and `ptr + offset_status` as the status address. -/
def from_ptr (header_layout schedule_layout stage_layout : RLayout) (ptr : Nat) :
    Option RawPtrs :=
  match layout header_layout schedule_layout stage_layout with
  | none => none
  | some tl => some ⟨ptr, ptr + tl.offset_schedule, ptr + tl.offset_status⟩

end RawTask

/-- `true` iff the trace contains a `storeOutput` event strictly before a
`transComplete` event. -/
def storePrecedesComplete {O : Type} : List (Event O) → Bool
  | [] => false
  | Event.storeOutput _ :: rest =>
      rest.any (fun e => match e with | Event.transComplete => true | _ => false)
        || storePrecedesComplete rest
  | _ :: rest => storePrecedesComplete rest

/-- Count the `wakeJoin` events in a trace. -/
def wakeJoinCount {O : Type} (es : List (Event O)) : Nat :=
  es.countP (fun e => match e with | Event.wakeJoin => true | _ => false)

/-- Count the `dealloc` events in a trace. -/
def deallocCount {O : Type} (es : List (Event O)) : Nat :=
  es.countP (fun e => match e with | Event.dealloc _ => true | _ => false)

end Woi

namespace Woi

/-! Helper lemmas about the shape of `poll`, shared by several claim
theorems below. -/

/-- A completing poll step with a registered join waiter: the run-state
becomes Complete, the waker is consumed, the output is stored, the trace
is transRunning, transComplete, wakeJoin, storeOutput, and the implicit
drop of the waker `poll` created releases one reference, deallocating the
task when it was the last. -/
theorem poll_ready_waiter_eq {F O S : Type} (step : F → O ⊕ F) (ptr : Nat)
    (t : TaskState F O S) (f : F) (out : O) (hs : t.status = Status.Running f)
    (hr : t.header.state.run_state = RunState.Idle
          ∨ t.header.state.run_state = RunState.Scheduled)
    (hc : 0 < t.header.state.ref_count)
    (hstep : step f = Sum.inl out) (hj : t.header.state.has_join_waiter = true)
    (hw : t.header.waker = some ()) :
    RawTask.poll step ptr t = some
      ({ header := { state := ⟨t.header.state.ref_count - 1, RunState.Complete,
                               t.header.state.has_join_waiter⟩,
                     waker := none },
         scheduler := t.scheduler, status := Status.Finished out },
       [Event.transRunning, Event.transComplete, Event.wakeJoin,
        Event.storeOutput out]
         ++ (if t.header.state.ref_count - 1 = 0 then [Event.dealloc ptr] else [])) := by
  obtain ⟨⟨⟨rc, rs, jw⟩, wk⟩, sched, st⟩ := t
  simp only at hc
  have hrc : rc ≠ 0 := Nat.pos_iff_ne_zero.mp hc
  rcases hr with h | h <;>
    simp_all [RawTask.poll, RawTask.drop_waker, State.transition_to_running,
      State.transition_to_complete, State.has_join_waker, Header.wake_join_handle,
      State.ref_decr] <;>
    by_cases h0 : rc - 1 = 0 <;>
    simp [h0]

/-- A completing poll step with no join waiter: the run-state becomes
Complete, the output is stored, no `wakeJoin` event is emitted, and the
implicit waker drop releases one reference. -/
theorem poll_ready_no_waiter_eq {F O S : Type} (step : F → O ⊕ F) (ptr : Nat)
    (t : TaskState F O S) (f : F) (out : O) (hs : t.status = Status.Running f)
    (hr : t.header.state.run_state = RunState.Idle
          ∨ t.header.state.run_state = RunState.Scheduled)
    (hc : 0 < t.header.state.ref_count)
    (hstep : step f = Sum.inl out) (hj : t.header.state.has_join_waiter = false) :
    RawTask.poll step ptr t = some
      ({ header := { state := ⟨t.header.state.ref_count - 1, RunState.Complete,
                               t.header.state.has_join_waiter⟩,
                     waker := t.header.waker },
         scheduler := t.scheduler, status := Status.Finished out },
       [Event.transRunning, Event.transComplete, Event.storeOutput out]
         ++ (if t.header.state.ref_count - 1 = 0 then [Event.dealloc ptr] else [])) := by
  obtain ⟨⟨⟨rc, rs, jw⟩, wk⟩, sched, st⟩ := t
  simp only at hc
  have hrc : rc ≠ 0 := Nat.pos_iff_ne_zero.mp hc
  rcases hr with h | h <;>
    simp_all [RawTask.poll, RawTask.drop_waker, State.transition_to_running,
      State.transition_to_complete, State.has_join_waker, State.ref_decr] <;>
    by_cases h0 : rc - 1 = 0 <;>
    simp [h0]

/-- A suspending poll step: the run-state returns to Idle, the Status
cell keeps the advanced future, the trace is transRunning, transIdle,
and the implicit waker drop releases one reference. -/
theorem poll_pending_eq {F O S : Type} (step : F → O ⊕ F) (ptr : Nat)
    (t : TaskState F O S) (f f' : F) (hs : t.status = Status.Running f)
    (hr : t.header.state.run_state = RunState.Idle
          ∨ t.header.state.run_state = RunState.Scheduled)
    (hc : 0 < t.header.state.ref_count)
    (hstep : step f = Sum.inr f') :
    RawTask.poll step ptr t = some
      ({ header := { state := ⟨t.header.state.ref_count - 1, RunState.Idle,
                               t.header.state.has_join_waiter⟩,
                     waker := t.header.waker },
         scheduler := t.scheduler, status := Status.Running f' },
       [Event.transRunning, Event.transIdle]
         ++ (if t.header.state.ref_count - 1 = 0 then [Event.dealloc ptr] else [])) := by
  obtain ⟨⟨⟨rc, rs, jw⟩, wk⟩, sched, st⟩ := t
  simp only at hc
  have hrc : rc ≠ 0 := Nat.pos_iff_ne_zero.mp hc
  rcases hr with h | h <;>
    simp_all [RawTask.poll, RawTask.drop_waker, State.transition_to_running,
      State.transition_to_idle, State.ref_decr] <;>
    by_cases h0 : rc - 1 = 0 <;>
    simp [h0]

/-- Polling a task whose Status cell is no longer `Running` is fatal
(`panic!("Wrong stage")`). -/
theorem poll_not_running_none {F O S : Type} (step : F → O ⊕ F) (ptr : Nat)
    (t : TaskState F O S) (h : ∀ f : F, t.status ≠ Status.Running f) :
    RawTask.poll step ptr t = none := by
  obtain ⟨hd, sched, st⟩ := t
  cases st with
  | Running f => exact absurd rfl (h f)
  | Finished out => simp [RawTask.poll]
  | Consumed => simp [RawTask.poll]

/-- C1: the claim fails on the code, and the code contradicts the spec's
own scenario.  A task built by `new` holds one reference
(`State::new` → ref_count 1); the waker `poll` builds at raw.rs:226 takes
no reference, yet its implicit drop at the end of `poll` runs
`drop_waker`, so the first poll of the fresh immediately-ready task takes
ref_count 1 → 0 and deallocates the allocation *inside that poll* (the
trace ends in `dealloc`).  The Status value `Finished 42` is written to
memory that is immediately freed, so the subsequent `get_output` the spec
asserts would read freed memory — the spec's scenario A (task survives
the poll; the allocation is freed later, by dropping the join handle)
describes the intent the code misses. -/
theorem new_first_poll_deallocates :
    RawTask.poll (fun _ : Unit => (Sum.inl 42 : Nat ⊕ Unit)) 0
        (RawTask.new Nat () ()) =
      some ({ header := { state := ⟨0, RunState.Complete, false⟩, waker := none },
              scheduler := (), status := Status.Finished 42 },
            [Event.transRunning, Event.transComplete, Event.storeOutput 42,
             Event.dealloc 0])
    ∧ (RawTask.new Nat () () : TaskState Unit Nat Unit).header.state.ref_count = 1
    ∧ deallocCount [Event.transRunning, Event.transComplete,
        Event.storeOutput (42 : Nat), Event.dealloc 0] = 1 :=
  ⟨rfl, rfl, rfl⟩

/-- C3: `get_output` on `Finished v` moves `v` to the destination and
sets the Status cell to `Consumed`; on `Running` or `Consumed` it fails
fatally instead of returning data; hence after completion the first call
succeeds and a second call is rejected. -/
theorem get_output_contract {F O S : Type} (ptr : Nat) (t : TaskState F O S) :
    (∀ v, t.status = Status.Finished v →
      RawTask.get_output ptr t =
        ({ t with status := Status.Consumed }, Except.ok v))
    ∧ (∀ f, t.status = Status.Running f →
      (RawTask.get_output ptr t).2 = Except.error "Could not retrieve output!")
    ∧ (t.status = Status.Consumed →
      (RawTask.get_output ptr t).2 = Except.error "Could not retrieve output!")
    ∧ (∀ v, t.status = Status.Finished v →
      (RawTask.get_output ptr (RawTask.get_output ptr t).1).2 =
        Except.error "Could not retrieve output!") := by
  refine ⟨?_, ?_, ?_, ?_⟩
  · intro v hv; simp [RawTask.get_output, hv]
  · intro f hf; simp [RawTask.get_output, hf]
  · intro hc; simp [RawTask.get_output, hc]
  · intro v hv; simp [RawTask.get_output, hv]

/-- C3 witness: the contract evaluated on a concrete finished task. -/
theorem get_output_contract_witness :
    ((({ header := { state := State.new, waker := none }, scheduler := (),
         status := Status.Finished 7 } : TaskState Unit Nat Unit).status
        = Status.Finished 7)
     → RawTask.get_output 0
          ({ header := { state := State.new, waker := none }, scheduler := (),
             status := Status.Finished 7 } : TaskState Unit Nat Unit) =
        ({ header := { state := State.new, waker := none }, scheduler := (),
           status := Status.Consumed }, Except.ok 7))
    ∧ (RawTask.get_output 0
        (RawTask.get_output 0
          ({ header := { state := State.new, waker := none }, scheduler := (),
             status := Status.Finished 7 } : TaskState Unit Nat Unit)).1).2 =
      Except.error "Could not retrieve output!" :=
  ⟨fun _ => (get_output_contract 0 _).1 7 rfl,
   (get_output_contract 0 _).2.2.2 7 rfl⟩

/-- C10: `get_output` replaces the Status cell with `Consumed` before
inspecting the old value, so on every path — including the fatal path
taken when the prior Status was `Running` or `Consumed` — the cell ends
up `Consumed`; in particular a suspended future in `Running` is removed
from the cell rather than left in place, and the header is untouched. -/
theorem get_output_always_consumes {F O S : Type} (ptr : Nat) (t : TaskState F O S) :
    (RawTask.get_output ptr t).1.status = Status.Consumed
    ∧ (RawTask.get_output ptr t).1.header = t.header
    ∧ (∀ f, t.status = Status.Running f →
      (RawTask.get_output ptr t).2 = Except.error "Could not retrieve output!"
      ∧ (RawTask.get_output ptr t).1.status ≠ Status.Running f) := by
  refine ⟨?_, ?_, ?_⟩
  · cases t with
    | mk header scheduler status => cases status <;> simp [RawTask.get_output]
  · cases t with
    | mk header scheduler status => cases status <;> simp [RawTask.get_output]
  · intro f hf
    refine ⟨by simp [RawTask.get_output, hf], ?_⟩
    simp [RawTask.get_output, hf]

/-- C10 witness: a task holding a suspended future, evaluated
concretely. -/
theorem get_output_always_consumes_witness :
    (RawTask.get_output 0
      ({ header := { state := State.new, waker := none }, scheduler := (),
         status := Status.Running () } : TaskState Unit Nat Unit)).1.status =
        Status.Consumed
    ∧ (RawTask.get_output 0
        ({ header := { state := State.new, waker := none }, scheduler := (),
           status := Status.Running () } : TaskState Unit Nat Unit)).2 =
        Except.error "Could not retrieve output!" :=
  ⟨(get_output_always_consumes 0 _).1,
   ((get_output_always_consumes 0 _).2.2 () rfl).1⟩

/-- C4: on a task whose run-state is Idle, both `wake` and `wake_by_ref`
transition the run-state to Scheduled and then invoke the embedded
scheduler's `schedule` exactly once, passing a `Task` handle bound to the
same allocation address (the trace is exactly one `schedule ptr`
event). -/
theorem wake_idle_schedules_once {F O S : Type} (ptr : Nat) (t : TaskState F O S)
    (h : t.header.state.run_state = RunState.Idle) :
    RawTask.wake ptr t =
      ({ t with header := { t.header with
          state := { t.header.state with run_state := RunState.Scheduled } } },
       [Event.schedule ptr])
    ∧ RawTask.wake_by_ref ptr t =
      ({ t with header := { t.header with
          state := { t.header.state with run_state := RunState.Scheduled } } },
       [Event.schedule ptr]) := by
  exact ⟨rfl, rfl⟩

/-- C4 witness: a concrete Idle task. -/
theorem wake_idle_schedules_once_witness :
    ({ header := { state := State.new, waker := none }, scheduler := (),
       status := Status.Running () } : TaskState Unit Nat Unit).header.state.run_state
      = RunState.Idle
    ∧ RawTask.wake 5
        ({ header := { state := State.new, waker := none }, scheduler := (),
           status := Status.Running () } : TaskState Unit Nat Unit) =
      ({ header := { state := ⟨1, RunState.Scheduled, false⟩, waker := none },
         scheduler := (), status := Status.Running () },
       [Event.schedule 5]) :=
  ⟨rfl, (wake_idle_schedules_once 5 _ rfl).1⟩

/-- C9: `wake` and `wake_by_ref` are the same function on every task
state (the source's `wake` has the waker-consuming `drop_waker` call
commented out), neither changes `ref_count`, and a `clone_waker` followed
by `wake` leaves `ref_count` one higher than before the clone. -/
theorem wake_refines_wake_by_ref {F O S : Type} (ptr : Nat) (t : TaskState F O S) :
    RawTask.wake ptr t = RawTask.wake_by_ref ptr t
    ∧ (RawTask.wake ptr t).1.header.state.ref_count = t.header.state.ref_count
    ∧ (RawTask.wake ptr (RawTask.clone_waker ptr t).1).1.header.state.ref_count
        = t.header.state.ref_count + 1 := by
  exact ⟨rfl, rfl, rfl⟩

/-- C2 counterexample: on a concrete task with two references, a
registered join waiter and an immediately-ready future, `poll` emits the
trace transition-to-Running, transition-to-Complete, wake-join,
store-output (and ends at ref_count 1 via the implicit waker drop) — the
output is stored *after* the Complete transition and the join wake, so
the claimed order (store, then Complete, then wake) does not hold. -/
theorem poll_store_order_counterexample :
    RawTask.poll (fun _ : Unit => (Sum.inl 42 : Nat ⊕ Unit)) 0
        ({ header := { state := ⟨2, RunState.Idle, true⟩, waker := some () },
           scheduler := (), status := Status.Running () } : TaskState Unit Nat Unit) =
      some ({ header := { state := ⟨1, RunState.Complete, true⟩, waker := none },
              scheduler := (), status := Status.Finished 42 },
            [Event.transRunning, Event.transComplete, Event.wakeJoin,
             Event.storeOutput 42])
    ∧ storePrecedesComplete
        [Event.transRunning, Event.transComplete, Event.wakeJoin,
         Event.storeOutput (42 : Nat)] = false := by
  exact ⟨rfl, rfl⟩

/-- C2 (amended): for every call to `poll` whose future step completes,
`poll` performs in this order: transition the run-state to Complete, wake
the join waiter if one is registered, store the output in Status, then
release the reference held by the waker `poll` created (deallocating the
task if it was the last); for every call whose future step suspends,
`poll` transitions the run-state to Idle and then releases that
reference. -/
theorem poll_effect_order {F O S : Type} (step : F → O ⊕ F) (ptr : Nat)
    (t : TaskState F O S) (f : F) (hs : t.status = Status.Running f)
    (hr : t.header.state.run_state = RunState.Idle
          ∨ t.header.state.run_state = RunState.Scheduled)
    (hc : 0 < t.header.state.ref_count) :
    (∀ out, step f = Sum.inl out → t.header.state.has_join_waiter = true →
      t.header.waker = some () →
      RawTask.poll step ptr t = some
        ({ header := { state := ⟨t.header.state.ref_count - 1, RunState.Complete,
                                 t.header.state.has_join_waiter⟩,
                       waker := none },
           scheduler := t.scheduler, status := Status.Finished out },
         [Event.transRunning, Event.transComplete, Event.wakeJoin,
          Event.storeOutput out]
           ++ (if t.header.state.ref_count - 1 = 0 then [Event.dealloc ptr] else [])))
    ∧ (∀ out, step f = Sum.inl out → t.header.state.has_join_waiter = false →
      RawTask.poll step ptr t = some
        ({ header := { state := ⟨t.header.state.ref_count - 1, RunState.Complete,
                                 t.header.state.has_join_waiter⟩,
                       waker := t.header.waker },
           scheduler := t.scheduler, status := Status.Finished out },
         [Event.transRunning, Event.transComplete, Event.storeOutput out]
           ++ (if t.header.state.ref_count - 1 = 0 then [Event.dealloc ptr] else [])))
    ∧ (∀ f', step f = Sum.inr f' →
      RawTask.poll step ptr t = some
        ({ header := { state := ⟨t.header.state.ref_count - 1, RunState.Idle,
                                 t.header.state.has_join_waiter⟩,
                       waker := t.header.waker },
           scheduler := t.scheduler, status := Status.Running f' },
         [Event.transRunning, Event.transIdle]
           ++ (if t.header.state.ref_count - 1 = 0 then [Event.dealloc ptr] else []))) := by
  exact ⟨fun out hstep hj hw =>
           poll_ready_waiter_eq step ptr t f out hs hr hc hstep hj hw,
         fun out hstep hj =>
           poll_ready_no_waiter_eq step ptr t f out hs hr hc hstep hj,
         fun f' hstep => poll_pending_eq step ptr t f f' hs hr hc hstep⟩

/-- C2 witness: the amended ordering evaluated on a concrete task with a
registered join waiter and two references. -/
theorem poll_effect_order_witness :
    RawTask.poll (fun _ : Unit => (Sum.inl 9 : Nat ⊕ Unit)) 3
        ({ header := { state := ⟨2, RunState.Scheduled, true⟩, waker := some () },
           scheduler := (), status := Status.Running () } : TaskState Unit Nat Unit) =
      some ({ header := { state := ⟨1, RunState.Complete, true⟩, waker := none },
              scheduler := (), status := Status.Finished 9 },
            [Event.transRunning, Event.transComplete, Event.wakeJoin,
             Event.storeOutput 9]) :=
  (poll_effect_order (fun _ : Unit => (Sum.inl 9 : Nat ⊕ Unit)) 3 _ () rfl
    (Or.inr rfl) (by decide)).1 9 rfl rfl rfl

/-- C8: with a join waiter registered before completion, the join waker
is consumed and notified exactly once, at the poll step that transitions
the run-state to Complete (the single `wakeJoin` event sits between
`transComplete` and `storeOutput`, and the post-state's waker slot is
empty); a suspending poll emits no notification (never before the
Complete transition); if the task survives the completing poll's implicit
waker release (it entered with more than one reference), any further poll
of it is fatal (never a second time); and with no waiter registered a
completing poll succeeds with no notification. -/
theorem join_waker_notified_once {F O S : Type} (step : F → O ⊕ F) (ptr : Nat)
    (t : TaskState F O S) (f : F) (hs : t.status = Status.Running f)
    (hr : t.header.state.run_state = RunState.Idle
          ∨ t.header.state.run_state = RunState.Scheduled)
    (hc : 0 < t.header.state.ref_count) :
    (∀ f', step f = Sum.inr f' →
      ∃ t' evs, RawTask.poll step ptr t = some (t', evs) ∧ wakeJoinCount evs = 0)
    ∧ (∀ out, step f = Sum.inl out → t.header.state.has_join_waiter = true →
      t.header.waker = some () →
      ∃ t' evs, RawTask.poll step ptr t = some (t', evs)
        ∧ evs = [Event.transRunning, Event.transComplete, Event.wakeJoin,
                 Event.storeOutput out]
            ++ (if t.header.state.ref_count - 1 = 0 then [Event.dealloc ptr] else [])
        ∧ wakeJoinCount evs = 1
        ∧ t'.header.waker = none
        ∧ t'.status = Status.Finished out
        ∧ (1 < t.header.state.ref_count →
            ∀ step₂ : F → O ⊕ F, RawTask.poll step₂ ptr t' = none))
    ∧ (∀ out, step f = Sum.inl out → t.header.state.has_join_waiter = false →
      ∃ t' evs, RawTask.poll step ptr t = some (t', evs)
        ∧ wakeJoinCount evs = 0) := by
  refine ⟨?_, ?_, ?_⟩
  · intro f' hstep
    refine ⟨_, _, poll_pending_eq step ptr t f f' hs hr hc hstep, ?_⟩
    by_cases h0 : t.header.state.ref_count - 1 = 0 <;> simp [wakeJoinCount, h0]
  · intro out hstep hj hw
    refine ⟨_, _, poll_ready_waiter_eq step ptr t f out hs hr hc hstep hj hw,
      rfl, ?_, rfl, rfl, ?_⟩
    · by_cases h0 : t.header.state.ref_count - 1 = 0 <;> simp [wakeJoinCount, h0]
    · intro _ step₂
      exact poll_not_running_none step₂ ptr _ (by intro f₀; simp)
  · intro out hstep hj
    refine ⟨_, _, poll_ready_no_waiter_eq step ptr t f out hs hr hc hstep hj, ?_⟩
    by_cases h0 : t.header.state.ref_count - 1 = 0 <;> simp [wakeJoinCount, h0]

/-- C8 witness: concrete tasks with and without a registered waiter. -/
theorem join_waker_notified_once_witness :
    (∃ t' evs, RawTask.poll (fun _ : Unit => (Sum.inl 1 : Nat ⊕ Unit)) 0
        ({ header := { state := ⟨2, RunState.Scheduled, true⟩, waker := some () },
           scheduler := (), status := Status.Running () } : TaskState Unit Nat Unit) =
        some (t', evs)
      ∧ wakeJoinCount evs = 1
      ∧ ∀ step₂ : Unit → Nat ⊕ Unit, RawTask.poll step₂ 0 t' = none)
    ∧ (∃ t' evs, RawTask.poll (fun _ : Unit => (Sum.inl 1 : Nat ⊕ Unit)) 0
        ({ header := { state := ⟨1, RunState.Idle, false⟩, waker := none },
           scheduler := (), status := Status.Running () } : TaskState Unit Nat Unit) =
        some (t', evs) ∧ wakeJoinCount evs = 0) := by
  have h1 := (join_waker_notified_once (fun _ : Unit => (Sum.inl 1 : Nat ⊕ Unit)) 0
      ({ header := { state := ⟨2, RunState.Scheduled, true⟩, waker := some () },
         scheduler := (), status := Status.Running () } : TaskState Unit Nat Unit)
      () rfl (Or.inr rfl) (by decide)).2.1 1 rfl rfl rfl
  have h2 := (join_waker_notified_once (fun _ : Unit => (Sum.inl 1 : Nat ⊕ Unit)) 0
      ({ header := { state := ⟨1, RunState.Idle, false⟩, waker := none },
         scheduler := (), status := Status.Running () } : TaskState Unit Nat Unit)
      () rfl (Or.inl rfl) (by decide)).2.2 1 rfl rfl
  obtain ⟨t', evs, ht, _, hcnt, _, _, hnone⟩ := h1
  exact ⟨⟨t', evs, ht, hcnt, hnone (by decide)⟩, h2⟩

/-! Helper lemmas about the reference-releasing operations. -/

/-- One reference-releasing step on a task with a positive count:
it succeeds, decrements the count by one, and emits a `dealloc` event
exactly when the count was 1 (so the new count is 0). -/
theorem releaseStep_spec {F O S : Type} (ptr : Nat) (op : ReleaseOp)
    (t : TaskState F O S) (h : 0 < t.header.state.ref_count) :
    ∃ t', releaseStep ptr op t =
        some (t', if t.header.state.ref_count = 1 then [Event.dealloc ptr] else [])
      ∧ t'.header.state.ref_count = t.header.state.ref_count - 1 := by
  obtain ⟨⟨⟨rc, rs, jw⟩, wk⟩, sched, st⟩ := t
  simp only at h ⊢
  have hrc : rc ≠ 0 := Nat.pos_iff_ne_zero.mp h
  cases op
  case waker =>
    refine ⟨{ header := { state := ⟨rc - 1, rs, jw⟩, waker := wk },
              scheduler := sched, status := st }, ?_, rfl⟩
    by_cases h1 : rc = 1
    · subst h1
      simp [releaseStep, RawTask.drop_waker, State.ref_decr]
    · have h2 : ¬ rc - 1 = 0 := by omega
      simp [releaseStep, RawTask.drop_waker, State.ref_decr, hrc, h1, h2]
  case join =>
    refine ⟨{ header := { state := ⟨rc - 1, rs, false⟩, waker := wk },
              scheduler := sched, status := st }, ?_, rfl⟩
    by_cases h1 : rc = 1
    · subst h1
      simp [releaseStep, RawTask.drop_join_handle, State.ref_decr,
        State.unset_join_handle]
    · have h2 : ¬ rc - 1 = 0 := by omega
      simp [releaseStep, RawTask.drop_join_handle, State.ref_decr,
        State.unset_join_handle, hrc, h1, h2]

/-- Running a sequence of reference-releasing operations no longer than
the current reference count: it succeeds, the final count is the initial
count minus the number of operations, and the emitted trace is exactly
one `dealloc` when the sequence releases every reference and is empty
otherwise. -/
theorem runReleases_spec {F O S : Type} (ptr : Nat) :
    ∀ (ops : List ReleaseOp) (t : TaskState F O S),
      ops.length ≤ t.header.state.ref_count → 0 < t.header.state.ref_count →
      ∃ t', runReleases ptr ops t =
          some (t', if ops.length = t.header.state.ref_count
                    then [Event.dealloc ptr] else [])
        ∧ t'.header.state.ref_count = t.header.state.ref_count - ops.length := by
  intro ops
  induction ops with
  | nil =>
    intro t hle hpos
    refine ⟨t, ?_, by simp⟩
    have hne : ¬ (([] : List ReleaseOp).length = t.header.state.ref_count) := by
      simp only [List.length_nil]
      omega
    simp only [runReleases, if_neg hne]
  | cons op rest ih =>
    intro t hle hpos
    obtain ⟨t1, hstep, hcount⟩ := releaseStep_spec ptr op t hpos
    by_cases hc1 : t.header.state.ref_count = 1
    · have hrest : rest = [] := by
        have : rest.length = 0 := by simp at hle; omega
        exact List.eq_nil_of_length_eq_zero this
      subst hrest
      refine ⟨t1, ?_, by simp [hcount]⟩
      simp [runReleases, hstep, hc1]
    · have hpos1 : 0 < t1.header.state.ref_count := by
        rw [hcount]; omega
      have hle1 : rest.length ≤ t1.header.state.ref_count := by
        rw [hcount]; simp at hle; omega
      obtain ⟨t2, hrun, hcount2⟩ := ih t1 hle1 hpos1
      refine ⟨t2, ?_, by rw [hcount2, hcount]; simp only [List.length_cons]; omega⟩
      simp only [runReleases, hstep, hrun, if_neg hc1, List.nil_append,
        List.length_cons]
      by_cases hx : rest.length + 1 = t.header.state.ref_count
      · have hx' : rest.length = t1.header.state.ref_count := by
          rw [hcount]; omega
        simp only [if_pos hx, if_pos hx']
      · have hx' : ¬ rest.length = t1.header.state.ref_count := by
          rw [hcount]; omega
        simp only [if_neg hx, if_neg hx']

/-- `cloneN` adds exactly `n` to the reference count and changes nothing
else. -/
theorem cloneN_eq {F O S : Type} (ptr : Nat) :
    ∀ (n : Nat) (t : TaskState F O S),
      cloneN ptr n t = { t with header := { t.header with state :=
        { t.header.state with ref_count := t.header.state.ref_count + n } } } := by
  intro n
  induction n with
  | zero => intro t; simp [cloneN]
  | succ n ih =>
    intro t
    rw [cloneN, ih]
    simp [RawTask.clone_waker, State.ref_incr]
    omega

/-- C5: `clone_waker` increments `ref_count` by exactly one and returns
a waker bound to the same pointer; `drop_waker` decrements `ref_count`
by exactly one and deallocates exactly when the count reaches zero;
hence `n` clones followed by `n` drops leave `ref_count` at its original
value with no deallocation. -/
theorem clone_waker_drop_waker_refcount {F O S : Type} (ptr n : Nat)
    (t u : TaskState F O S) (ht : 0 < t.header.state.ref_count)
    (hu : 0 < u.header.state.ref_count) :
    (RawTask.clone_waker ptr t).1.header.state.ref_count
        = t.header.state.ref_count + 1
    ∧ (RawTask.clone_waker ptr t).2 = ptr
    ∧ (∃ u' evs, RawTask.drop_waker ptr u = some (u', evs)
        ∧ u'.header.state.ref_count = u.header.state.ref_count - 1
        ∧ (evs = [Event.dealloc ptr] ↔ u'.header.state.ref_count = 0)
        ∧ (evs = [] ↔ 0 < u'.header.state.ref_count))
    ∧ (∃ t', runReleases ptr (List.replicate n ReleaseOp.waker) (cloneN ptr n t)
          = some (t', [])
        ∧ t'.header.state.ref_count = t.header.state.ref_count) := by
  refine ⟨rfl, rfl, ?_, ?_⟩
  · obtain ⟨u', hstep, hcount⟩ := releaseStep_spec ptr ReleaseOp.waker u hu
    refine ⟨u', if u.header.state.ref_count = 1 then [Event.dealloc ptr] else [],
      hstep, hcount, ?_, ?_⟩
    · by_cases h1 : u.header.state.ref_count = 1
      · rw [if_pos h1]
        simp only [true_iff]
        omega
      · rw [if_neg h1]
        constructor
        · intro hev
          exact absurd hev (by simp)
        · intro h0
          exact absurd h1 (by omega)
    · by_cases h1 : u.header.state.ref_count = 1
      · rw [if_pos h1]
        constructor
        · intro hev
          exact absurd hev (by simp)
        · intro h0
          omega
      · rw [if_neg h1]
        simp only [true_iff]
        omega
  · have hcl := cloneN_eq ptr n t
    have hlen : (List.replicate n ReleaseOp.waker).length
        ≤ (cloneN ptr n t).header.state.ref_count := by
      rw [hcl]; simp
    have hpos : 0 < (cloneN ptr n t).header.state.ref_count := by
      rw [hcl]; simp; omega
    obtain ⟨t', hrun, hcount⟩ :=
      runReleases_spec ptr (List.replicate n ReleaseOp.waker) (cloneN ptr n t)
        hlen hpos
    have hne : ¬ ((List.replicate n ReleaseOp.waker).length
        = (cloneN ptr n t).header.state.ref_count) := by
      rw [hcl]; simp; omega
    rw [if_neg hne] at hrun
    refine ⟨t', hrun, ?_⟩
    rw [hcount, hcl]
    simp

/-- C5 witness: three clones then three drops on a task with one
reference. -/
theorem clone_waker_drop_waker_refcount_witness :
    ∃ t', runReleases 0 (List.replicate 3 ReleaseOp.waker)
        (cloneN 0 3 ({ header := { state := ⟨1, RunState.Idle, false⟩, waker := none },
                       scheduler := (), status := Status.Consumed }
                     : TaskState Unit Nat Unit))
      = some (t', [])
    ∧ t'.header.state.ref_count =
        ({ header := { state := ⟨1, RunState.Idle, false⟩, waker := none },
           scheduler := (), status := Status.Consumed }
         : TaskState Unit Nat Unit).header.state.ref_count :=
  (clone_waker_drop_waker_refcount 0 3
    ({ header := { state := ⟨1, RunState.Idle, false⟩, waker := none },
       scheduler := (), status := Status.Consumed } : TaskState Unit Nat Unit)
    ({ header := { state := ⟨1, RunState.Idle, false⟩, waker := none },
       scheduler := (), status := Status.Consumed } : TaskState Unit Nat Unit)
    (by decide) (by decide)).2.2.2

/-- C6: on a task holding `ref_count` references, any sequence of
reference-releasing operations (`drop_waker`, `drop_join_handle`) no
longer than the count succeeds; `dealloc` is emitted exactly once, at the
release taking the count from 1 to 0 (so only when the sequence releases
every reference, as its final event), and every proper prefix of the
sequence leaves the count positive with no `dealloc`. -/
theorem refcount_positive_dealloc_once {F O S : Type} (ptr : Nat)
    (ops : List ReleaseOp) (t : TaskState F O S)
    (hlen : ops.length ≤ t.header.state.ref_count)
    (hpos : 0 < t.header.state.ref_count) :
    (∃ t', runReleases ptr ops t =
        some (t', if ops.length = t.header.state.ref_count
                  then [Event.dealloc ptr] else [])
      ∧ t'.header.state.ref_count = t.header.state.ref_count - ops.length)
    ∧ (∀ k, k < ops.length →
      ∃ tk, runReleases ptr (ops.take k) t = some (tk, [])
        ∧ 0 < tk.header.state.ref_count) := by
  refine ⟨runReleases_spec ptr ops t hlen hpos, ?_⟩
  intro k hk
  have hlek : (ops.take k).length ≤ t.header.state.ref_count := by
    simp only [List.length_take]
    omega
  obtain ⟨tk, hrun, hcount⟩ := runReleases_spec ptr (ops.take k) t hlek hpos
  have hne : ¬ ((ops.take k).length = t.header.state.ref_count) := by
    simp only [List.length_take]
    omega
  rw [if_neg hne] at hrun
  refine ⟨tk, hrun, ?_⟩
  rw [hcount]
  simp only [List.length_take]
  omega

/-- C6 witness: a waker drop followed by a join-handle drop on a task
with two references frees the allocation exactly at the second drop. -/
theorem refcount_positive_dealloc_once_witness :
    ∃ t', runReleases 0 [ReleaseOp.waker, ReleaseOp.join]
        ({ header := { state := ⟨2, RunState.Complete, true⟩, waker := none },
           scheduler := (), status := Status.Consumed }
         : TaskState Unit Nat Unit)
      = some (t', if ([ReleaseOp.waker, ReleaseOp.join] : List ReleaseOp).length =
            ({ header := { state := ⟨2, RunState.Complete, true⟩, waker := none },
               scheduler := (), status := Status.Consumed }
             : TaskState Unit Nat Unit).header.state.ref_count
          then [Event.dealloc 0] else [])
    ∧ t'.header.state.ref_count =
        ({ header := { state := ⟨2, RunState.Complete, true⟩, waker := none },
           scheduler := (), status := Status.Consumed }
         : TaskState Unit Nat Unit).header.state.ref_count - 2 :=
  (refcount_positive_dealloc_once 0 [ReleaseOp.waker, ReleaseOp.join] _
    (by decide) (by decide)).1

/-- C7: for a fixed (future-type, scheduler-type) pair — i.e. fixed
constituent layouts — every invocation of `layout()` yields the same
total size, alignment and field offsets, the field addresses computed by
`from_ptr` at access time are the allocation base plus exactly the
offsets `layout()` produced at allocation time, and the Header sits at
offset 0. -/
theorem layout_deterministic (hl sl fl : RLayout) (ptr : Nat) :
    (∀ tl₁ tl₂, RawTask.layout hl sl fl = some tl₁ →
      RawTask.layout hl sl fl = some tl₂ →
      tl₁.layout.size = tl₂.layout.size ∧ tl₁.layout.align = tl₂.layout.align
      ∧ tl₁.offset_schedule = tl₂.offset_schedule
      ∧ tl₁.offset_status = tl₂.offset_status)
    ∧ (∀ tl, RawTask.layout hl sl fl = some tl →
      RawTask.from_ptr hl sl fl ptr =
        some { header := ptr + 0, scheduler := ptr + tl.offset_schedule,
               status := ptr + tl.offset_status }) := by
  constructor
  · intro tl₁ tl₂ h1 h2
    rw [h1] at h2
    cases h2
    exact ⟨rfl, rfl, rfl, rfl⟩
  · intro tl h
    simp [RawTask.from_ptr, h]

/-- C7 witness: concrete constituent layouts (a 40-byte 8-aligned header,
a zero-sized scheduler, a 16-byte 8-aligned status cell). -/
theorem layout_deterministic_witness :
    RawTask.layout ⟨40, 8⟩ ⟨0, 1⟩ ⟨16, 8⟩ = some ⟨⟨56, 8⟩, 40, 40⟩
    ∧ RawTask.from_ptr ⟨40, 8⟩ ⟨0, 1⟩ ⟨16, 8⟩ 100 =
        some { header := 100 + 0, scheduler := 100 + 40, status := 100 + 40 } :=
  ⟨by decide,
   (layout_deterministic ⟨40, 8⟩ ⟨0, 1⟩ ⟨16, 8⟩ 100).2 ⟨⟨56, 8⟩, 40, 40⟩ (by decide)⟩

end Woi
